import Mathlib

/-!
Shallow embedding of the fox-toolkit/timeout middleware.

Sources embedded here:
  * `timeout.go`: `Middleware`/`create`, `run`, `resolveTimeout`, `setDeadline`,
    `checkWriteHeaderCode`;
  * the route option file defining the three tag types `hKey`, `rKey`, `wKey`,
    `OverrideHandler`/`OverrideRead`/`OverrideWrite` and `unwrapRouteTimeout`;
  * the option file defining `config`, `defaultConfig`, `WithResponse` and
    `DefaultResponse`.

Durations (`time.Duration`) are embedded as `Int` (nanoseconds); status codes as
`Int` where the handler supplies them and `Nat` once stored.  The real response
sink is modelled as the ordered list of externally visible calls made on it
(`SinkEvent`), so ordering claims are equalities between event lists.  The
handler is modelled as the list of operations it performs on its writer plus an
optional panic value; the outcome of the engine's three-way select is an input
of the model (which event the select observed first), since real time is outside
the embedding.
-/

namespace FoxTimeout

/-- Errors-as-values occurring in the middleware: `http.ErrHandlerTimeout`,
`context.DeadlineExceeded`, `context.Canceled` and `http.ErrNotSupported`. -/
inductive Err where
  | errHandlerTimeout
  | deadlineExceeded
  | canceled
  | errNotSupported
deriving DecidableEq, Repr

/-- The three annotation-key types of the route option file: `hKey{}`, `rKey{}`
and `wKey{}` are values of three distinct empty-struct types, so as dynamic
values they are pairwise distinct; we embed them as a three-constructor
inductive. -/
inductive Tag where
  | hKey
  | rKey
  | wKey
deriving DecidableEq, Repr

/-- A fox route restricted to what this middleware consumes: its immutable
per-route key-value store populated at registration time (the spec's external
collaborator interface: lookups return presence plus value). -/
structure Route where
  anns : List (Tag × Int)
deriving DecidableEq, Repr

/-- `fox.Route.Annotation`: first registered value under the tag, if any
(modelling the spec's per-route immutable key-value store lookup). -/
def Route.ann (r : Route) (k : Tag) : Option Int :=
  (r.anns.find? (fun p => p.1 == k)).map (fun p => p.2)

/-- `fox.WithAnnotation`: registration-time population of the per-route store
with one more tagged value. -/
def withAnn (r : Route) (k : Tag) (v : Int) : Route :=
  ⟨r.anns ++ [(k, v)]⟩

/-- `unwrapRouteTimeout`: nil route or absent tag yields `(0, false)`; a
present tagged duration yields `(dt, true)`. -/
def unwrapRouteTimeout (r : Option Route) (k : Tag) : Int × Bool :=
  match r with
  | none => (0, false)
  | some route =>
    match route.ann k with
    | some dt => (dt, true)
    | none => (0, false)

/-- Externally visible calls performed on the real response sink, in order.
`copyHeaders` is the `maps.Copy(dst, tw.headers)` step of the commit branch;
`setHeader`/`delHeader` are `Header().Set`/`Header().Del` calls (as performed by
`http.Error` inside `DefaultResponse`); the two deadline events are
`SetReadDeadline`/`SetWriteDeadline` with the absolute time passed. -/
inductive SinkEvent where
  | setReadDeadline (t : Int)
  | setWriteDeadline (t : Int)
  | copyHeaders (hs : List (String × String))
  | writeHeader (code : Nat)
  | write (p : List Nat)
  | setHeader (k v : String)
  | delHeader (k : String)
deriving DecidableEq, Repr

/-- The real response sink: the ordered trace of calls made on it, plus whether
the underlying connection supports read/write deadlines (when it does not,
`SetReadDeadline`/`SetWriteDeadline` fail with `http.ErrNotSupported`). -/
structure RealSink where
  events : List SinkEvent
  supportsDeadline : Bool
deriving DecidableEq, Repr

/-- `SetReadDeadline` on the real sink: records the call when supported,
otherwise fails with `http.ErrNotSupported` and has no effect. -/
def RealSink.setReadDeadline (s : RealSink) (t : Int) : RealSink × Option Err :=
  if s.supportsDeadline then
    ({ s with events := s.events ++ [SinkEvent.setReadDeadline t] }, none)
  else
    (s, some Err.errNotSupported)

/-- `SetWriteDeadline` on the real sink: records the call when supported,
otherwise fails with `http.ErrNotSupported` and has no effect. -/
def RealSink.setWriteDeadline (s : RealSink) (t : Int) : RealSink × Option Err :=
  if s.supportsDeadline then
    ({ s with events := s.events ++ [SinkEvent.setWriteDeadline t] }, none)
  else
    (s, some Err.errNotSupported)

/-- UTF-8/ASCII bytes of a Go string literal, as codepoints (all body texts in
scope are ASCII). -/
def strBytes (s : String) : List Nat :=
  s.data.map Char.toNat

/-- `checkWriteHeaderCode`: `some msg` is the panic (with the `fmt.Sprintf`
message), `none` is a normal return. -/
def checkWriteHeaderCode (code : Int) : Option String :=
  if code < 100 ∨ code > 999 then some ("invalid status code " ++ toString code)
  else none

/-- The buffered shadow writer (`timeoutWriter`).  `run` constructs it with the
buffered header map empty, `code` = `http.StatusOK` (200), an empty reset
buffer, and the zero values `wroteHeader = false`, `err = nil`.  The `w` and
`req` fields (references to the real sink and cloned request) are not state of
the buffering logic and are kept outside the structure. -/
structure TimeoutWriter where
  headers : List (String × String)
  code : Nat
  wroteHeader : Bool
  buf : List Nat
  err : Option Err
deriving DecidableEq, Repr

/-- The shadow writer as `run` constructs it (`timeout.go` lines 87-93). -/
def initTimeoutWriter : TimeoutWriter :=
  { headers := [], code := 200, wroteHeader := false, buf := [], err := none }

/-- Modelled from the spec: the body of `timeoutWriter.Write` is not under the
sources provided (only its construction in `run` is); per spec 4.2, if the
terminal error is set the call returns that error and writes nothing, otherwise
it appends to the buffered body and implicitly commits the status (the buffered
code, initialised to 200). -/
def TimeoutWriter.write (tw : TimeoutWriter) (p : List Nat) :
    TimeoutWriter × Except Err Nat :=
  match tw.err with
  | some e => (tw, Except.error e)
  | none => ({ tw with buf := tw.buf ++ p, wroteHeader := true }, Except.ok p.length)

/-- Modelled from the spec: the body of `timeoutWriter.WriteHeader` is not
under the sources provided; per spec 4.2 it validates the code through
`checkWriteHeaderCode` (an `Except.error` is the resulting panic), is a no-op
once the terminal error is set, and the first call wins (a later call with a
different code is ignored). -/
def TimeoutWriter.writeHeader (tw : TimeoutWriter) (code : Int) :
    Except String TimeoutWriter :=
  match checkWriteHeaderCode code with
  | some msg => Except.error msg
  | none =>
    if tw.err.isSome || tw.wroteHeader then Except.ok tw
    else Except.ok { tw with code := code.toNat, wroteHeader := true }

/-- `http.Header.Set` on the buffered (or real) header collection: replaces any
existing entries under the key. -/
def headerSet (hs : List (String × String)) (k v : String) :
    List (String × String) :=
  hs.filter (fun e => e.1 != k) ++ [(k, v)]

/-- One operation a handler performs on its response writer. -/
inductive HandlerOp where
  | writeHeader (code : Int)
  | write (p : List Nat)
  | setHeader (k v : String)
deriving DecidableEq, Repr

/-- A handler: the writer operations it performs, followed (if `panics` is
`some p`) by a panic with value `p`. -/
structure Handler where
  ops : List HandlerOp
  panics : Option String
deriving DecidableEq, Repr

/-- Handler operations executed against the shadow writer.  The second
component is the panic raised by `checkWriteHeaderCode` inside `WriteHeader`,
if any (execution stops there).  `setHeader` acts on the live buffered header
collection returned by `Header()` and is not gated by the terminal error. -/
def execShadow (tw : TimeoutWriter) (ops : List HandlerOp) :
    TimeoutWriter × Option String :=
  match ops with
  | [] => (tw, none)
  | op :: rest =>
    match op with
    | HandlerOp.writeHeader code =>
      match tw.writeHeader code with
      | Except.error msg => (tw, some msg)
      | Except.ok tw2 => execShadow tw2 rest
    | HandlerOp.write p => execShadow (tw.write p).1 rest
    | HandlerOp.setHeader k v =>
      execShadow { tw with headers := headerSet tw.headers k v } rest

/-- The sink call made by one handler operation when the handler runs directly
against the real sink (pass-through path: no buffering, no validation by this
middleware — the real writer is the external collaborator). -/
def opEvent : HandlerOp → SinkEvent
  | HandlerOp.writeHeader code => SinkEvent.writeHeader code.toNat
  | HandlerOp.write p => SinkEvent.write p
  | HandlerOp.setHeader k v => SinkEvent.setHeader k v

/-- Handler operations executed directly against the real sink (pass-through
path). -/
def execReal (s : RealSink) (ops : List HandlerOp) : RealSink :=
  { s with events := s.events ++ ops.map opEvent }

/-- `config`: the pluggable fallback responder, modelled by the trace of sink
calls it performs against the original (non-shadow) sink. -/
structure Config where
  resp : List SinkEvent
deriving DecidableEq, Repr

/-- `DefaultResponse`: `http.Error(w, http.StatusText(503), 503)`, i.e. delete
Content-Length, set the two text headers, write status 503, write the text body
followed by a newline. -/
def DefaultResponse : List SinkEvent :=
  [SinkEvent.delHeader "Content-Length",
   SinkEvent.setHeader "Content-Type" "text/plain; charset=utf-8",
   SinkEvent.setHeader "X-Content-Type-Options" "nosniff",
   SinkEvent.writeHeader 503,
   SinkEvent.write (strBytes "Service Unavailable\n")]

/-- `defaultConfig`: the fallback responder defaults to `DefaultResponse`. -/
def defaultConfig : Config :=
  { resp := DefaultResponse }

/-- `WithResponse`: `nil` (here `none`) leaves the configured responder
unchanged; a non-nil handler replaces it. -/
def WithResponse (h : Option (List SinkEvent)) : Config → Config :=
  fun c =>
    match h with
    | some f => { c with resp := f }
    | none => c

/-- The `Timeout` middleware value: configuration plus the global duration. -/
structure Timeout where
  cfg : Config
  dt : Int
deriving DecidableEq, Repr

/-- `create`: apply the options in order to the default configuration. -/
def create (dt : Int) (opts : List (Config → Config)) : Timeout :=
  { dt := dt, cfg := opts.foldl (fun c o => o c) defaultConfig }

/-- `resolveTimeout`: a present route handler-timeout override (any sign) is
the effective timeout, otherwise the global duration. -/
def Timeout.resolveTimeout (t : Timeout) (route : Option Route) : Int :=
  match unwrapRouteTimeout route Tag.hKey with
  | (dt, true) => dt
  | (_, false) => t.dt

/-- `setDeadline`: apply the route's read/write-deadline overrides, as absolute
times `now + override`, to the real sink; errors of the two applications are
discarded (`_ =`). -/
def Timeout.setDeadline (_t : Timeout) (route : Option Route) (now : Int)
    (s : RealSink) : RealSink :=
  let s1 :=
    match unwrapRouteTimeout route Tag.rKey with
    | (dt, true) => (s.setReadDeadline (now + dt)).1
    | (_, false) => s
  match unwrapRouteTimeout route Tag.wKey with
  | (dt, true) => (s1.setWriteDeadline (now + dt)).1
  | (_, false) => s1

/-- `context.Err()` mapped to the terminal error of the shadow: the `switch` of
the timed-out branch sends `context.DeadlineExceeded` to
`http.ErrHandlerTimeout` and stores any other error unchanged. -/
def mapCtxErr : Err → Err
  | Err.deadlineExceeded => Err.errHandlerTimeout
  | e => e

/-- The engine's timed-out decision applied to the shadow: store the terminal
error derived from the context error (the `switch` of the `ctx.Done()` branch,
under the shadow's mutex). -/
def doomShadow (tw : TimeoutWriter) (e : Err) : TimeoutWriter :=
  { tw with err := some (mapCtxErr e) }

/-- Result of one middleware invocation: the final real sink, the final shadow
writer (none on the pass-through path), and the panic value re-raised on the
engine's stack, if any. -/
structure RunResult where
  sink : RealSink
  tw : Option TimeoutWriter
  panicked : Option String
deriving DecidableEq, Repr

/-- The returned handler of `run`.  `fit` ("finished in time") is the select's
choice: `true` when the completion or panic signal was observed first, `false`
when the derived context's done channel fired first (with `e` the context's
error at that point).  `k` is how many of the handler's operations had reached
the shadow before the timed-out decision; the remaining operations still run
against the doomed shadow afterwards.  A handler panic observed after the
decision is absorbed by the buffered panic channel and never re-raised. -/
def Timeout.run (t : Timeout) (route : Option Route) (h : Handler) (now : Int)
    (sink0 : RealSink) (k : Nat) (fit : Bool) (e : Err) : RunResult :=
  let s := t.setDeadline route now sink0
  let dt := t.resolveTimeout route
  if dt ≤ 0 then
    { sink := execReal s h.ops, tw := none, panicked := h.panics }
  else if fit then
    match execShadow initTimeoutWriter h.ops with
    | (tw1, some q) => { sink := s, tw := some tw1, panicked := some q }
    | (tw1, none) =>
      match h.panics with
      | some p => { sink := s, tw := some tw1, panicked := some p }
      | none =>
        { sink := { s with events := s.events ++
            [SinkEvent.copyHeaders tw1.headers, SinkEvent.writeHeader tw1.code,
             SinkEvent.write tw1.buf] },
          tw := some tw1, panicked := none }
  else
    let tw1 := (execShadow initTimeoutWriter (h.ops.take k)).1
    let tw3 := (execShadow (doomShadow tw1 e) (h.ops.drop k)).1
    { sink := { s with events := s.events ++ t.cfg.resp },
      tw := some tw3, panicked := none }

/-- Events of the concurrent task launched by `run` (lines 97-106), in program
order.  The body runs the handler then `close(done)`; the deferred function
then runs `cp.Close()` and, when `recover()` caught a panic, sends it on the
panic channel.  On a panic, `close(done)` is skipped and the deferred function
runs directly. -/
inductive GoEvent where
  | handlerReturned
  | handlerPanicked
  | closeDone
  | cpClose
  | sendPanic
deriving DecidableEq, Repr

/-- Program-order trace of the concurrent task, by whether the handler
panicked. -/
def goroutineTrace (panics : Bool) : List GoEvent :=
  if panics then [GoEvent.handlerPanicked, GoEvent.cpClose, GoEvent.sendPanic]
  else [GoEvent.handlerReturned, GoEvent.closeDone, GoEvent.cpClose]

/-- `a` occurs strictly before `b` in the trace. -/
def eventBefore (tr : List GoEvent) (a b : GoEvent) : Prop :=
  tr.indexOf a < tr.indexOf b

instance (tr : List GoEvent) (a b : GoEvent) : Decidable (eventBefore tr a b) :=
  inferInstanceAs (Decidable (tr.indexOf a < tr.indexOf b))

/-! ## Helper lemmas -/

/-- No shadow operation ever sets or clears the terminal error: it is owned by
the engine's decision alone. -/
theorem execShadow_err (ops : List HandlerOp) (tw : TimeoutWriter) :
    ((execShadow tw ops).1).err = tw.err := by
  induction ops generalizing tw with
  | nil => rfl
  | cons op rest ih =>
    cases op with
    | writeHeader code =>
      simp only [execShadow, TimeoutWriter.writeHeader]
      cases hc : checkWriteHeaderCode code with
      | some msg => rfl
      | none =>
        by_cases hw : (tw.err.isSome || tw.wroteHeader) = true
        · simp only [hw, if_pos]
          exact ih tw
        · simp only [hw, if_neg, Bool.false_eq_true, not_false_iff, ite_false]
          exact ih _
    | write p =>
      simp only [execShadow, TimeoutWriter.write]
      cases he : tw.err with
      | some e => simpa [he] using ih tw
      | none => simpa [he] using ih _
    | setHeader k v =>
      simp only [execShadow]
      exact ih _

/-- Once the terminal error is set, no shadow operation changes the buffered
body or the buffered status code: late writes are rejected. -/
theorem execShadow_gate (ops : List HandlerOp) (tw : TimeoutWriter)
    (he : tw.err.isSome = true) :
    ((execShadow tw ops).1).buf = tw.buf ∧
      ((execShadow tw ops).1).code = tw.code := by
  induction ops generalizing tw with
  | nil => exact ⟨rfl, rfl⟩
  | cons op rest ih =>
    cases op with
    | writeHeader code =>
      simp only [execShadow, TimeoutWriter.writeHeader]
      cases hc : checkWriteHeaderCode code with
      | some msg => exact ⟨rfl, rfl⟩
      | none =>
        have hw : (tw.err.isSome || tw.wroteHeader) = true := by simp [he]
        simp only [hw, if_pos]
        exact ih tw he
    | write p =>
      simp only [execShadow, TimeoutWriter.write]
      cases hE : tw.err with
      | some e => simpa [hE] using ih tw he
      | none => simp [hE] at he
    | setHeader k v =>
      simp only [execShadow]
      exact ih _ (by simpa using he)

/-! ## Claim theorems -/

/-- C9: the status-code check invoked on `WriteHeader` panics if and only if
the code is outside the range 100 to 999 inclusive, and returns normally for
every code in that range. -/
theorem c9_checkWriteHeaderCode_panics_iff (code : Int) :
    ((checkWriteHeaderCode code).isSome = true ↔ (code < 100 ∨ code > 999)) ∧
    (checkWriteHeaderCode code = none ↔ (100 ≤ code ∧ code ≤ 999)) := by
  unfold checkWriteHeaderCode
  by_cases h : code < 100 ∨ code > 999
  · simp only [h, if_pos]
    constructor
    · simp
    · constructor
      · intro hc; cases hc
      · intro hc; omega
  · simp only [h, if_neg, not_false_iff]
    constructor
    · simp [h]
    · simp only [true_iff]
      omega

/-- C10: applying `WithResponse` with a nil handler leaves the configured
fallback responder unchanged (`DefaultResponse`, or any responder set by an
earlier option, stays in effect); only a non-nil handler replaces it. -/
theorem c10_withResponse_nil_keeps_responder (c : Config) (f : List SinkEvent)
    (dt : Int) :
    WithResponse none c = c ∧
    (create dt [WithResponse none]).cfg.resp = DefaultResponse ∧
    WithResponse (some f) c = { resp := f } ∧
    (create dt [WithResponse (some f), WithResponse none]).cfg.resp = f :=
  ⟨rfl, rfl, rfl, rfl⟩

/-- C7: the three annotation tags are pairwise distinct, and registering an
override under one tag leaves lookups under any other tag unchanged. -/
theorem c7_tags_independent (r : Route) (k1 k2 : Tag) (v : Int)
    (hne : k1 ≠ k2) :
    (Tag.hKey ≠ Tag.rKey ∧ Tag.hKey ≠ Tag.wKey ∧ Tag.rKey ≠ Tag.wKey) ∧
    Route.ann (withAnn r k1 v) k2 = Route.ann r k2 := by
  refine ⟨⟨by decide, by decide, by decide⟩, ?_⟩
  unfold Route.ann withAnn
  simp only
  rw [List.find?_append]
  have hsingle : List.find? (fun p => p.1 == k2) [(k1, v)] = none := by
    have hb : (k1 == k2) = false := by
      simp only [beq_eq_false_iff_ne, ne_eq]
      exact hne
    simp [List.find?, hb]
  rw [hsingle, Option.or_none]

/-- Witness for C7 at a concrete route: registering a read-deadline override
does not disturb the handler-timeout lookup. -/
theorem c7_tags_independent_witness :
    Route.ann (withAnn ⟨[(Tag.hKey, 5)]⟩ Tag.rKey 7) Tag.hKey = some 5 := by
  have h := c7_tags_independent ⟨[(Tag.hKey, 5)]⟩ Tag.rKey Tag.hKey 7 (by decide)
  rw [h.2]
  decide

/-- C6 (counterexample): in the normal-completion trace of the concurrent
task, the completion signal `close(done)` is emitted by the function body
before the deferred cleanup `cp.Close()` runs, so the cleanup step does not
complete before the completion signal can be observed by the engine's select. -/
theorem c6_cleanup_after_done_cex :
    goroutineTrace false =
      [GoEvent.handlerReturned, GoEvent.closeDone, GoEvent.cpClose] ∧
    ¬ eventBefore (goroutineTrace false) GoEvent.cpClose GoEvent.closeDone := by
  decide

/-- C6 (amended): the cleanup step runs exactly once in either trace; it
completes before the panic signal is sent, but on normal completion the
completion signal is sent before the cleanup step runs. -/
theorem c6_cleanup_once_amended :
    ((goroutineTrace true).count GoEvent.cpClose = 1 ∧
     (goroutineTrace false).count GoEvent.cpClose = 1) ∧
    eventBefore (goroutineTrace true) GoEvent.cpClose GoEvent.sendPanic ∧
    eventBefore (goroutineTrace false) GoEvent.closeDone GoEvent.cpClose := by
  decide

/-- C4: a present route handler-timeout override is the effective timeout (so
a positive override replaces the global value), an absent override leaves the
global duration; and whenever the effective timeout is non-positive the
middleware invokes the handler directly against the real sink, with no shadow
and no buffering. -/
theorem c4_nonpositive_passthrough (t : Timeout) (route : Option Route)
    (h : Handler) (now : Int) (sink0 : RealSink) (k : Nat) (fit : Bool)
    (e : Err) :
    ((unwrapRouteTimeout route Tag.hKey).2 = true →
        t.resolveTimeout route = (unwrapRouteTimeout route Tag.hKey).1) ∧
    ((unwrapRouteTimeout route Tag.hKey).2 = false →
        t.resolveTimeout route = t.dt) ∧
    (t.resolveTimeout route ≤ 0 →
        t.run route h now sink0 k fit e =
          { sink := execReal (t.setDeadline route now sink0) h.ops,
            tw := none, panicked := h.panics }) := by
  refine ⟨?_, ?_, ?_⟩
  · intro hb
    unfold Timeout.resolveTimeout
    rcases hu : unwrapRouteTimeout route Tag.hKey with ⟨dtv, b⟩
    rw [hu] at hb
    simp only at hb
    subst hb
    simp [hu]
  · intro hb
    unfold Timeout.resolveTimeout
    rcases hu : unwrapRouteTimeout route Tag.hKey with ⟨dtv, b⟩
    rw [hu] at hb
    simp only at hb
    subst hb
    simp
  · intro hle
    simp only [Timeout.run]
    rw [if_pos hle]

/-- Witness for C4: a zero route override over a positive global timeout, and
an absent override over the same global timeout. -/
theorem c4_nonpositive_passthrough_witness :
    Timeout.resolveTimeout ⟨⟨DefaultResponse⟩, 50⟩ (some ⟨[(Tag.hKey, 0)]⟩) = 0 ∧
    Timeout.resolveTimeout ⟨⟨DefaultResponse⟩, 50⟩ none = 50 ∧
    Timeout.run ⟨⟨DefaultResponse⟩, 50⟩ (some ⟨[(Tag.hKey, 0)]⟩)
        ⟨[HandlerOp.write [104]], none⟩ 0 ⟨[], true⟩ 0 true Err.canceled =
      { sink := ⟨[SinkEvent.write [104]], true⟩, tw := none,
        panicked := none } := by
  have h1 := c4_nonpositive_passthrough ⟨⟨DefaultResponse⟩, 50⟩
    (some ⟨[(Tag.hKey, 0)]⟩) ⟨[HandlerOp.write [104]], none⟩ 0 ⟨[], true⟩ 0
    true Err.canceled
  have h2 := c4_nonpositive_passthrough ⟨⟨DefaultResponse⟩, 50⟩ none
    ⟨[], none⟩ 0 ⟨[], true⟩ 0 true Err.canceled
  refine ⟨?_, ?_, ?_⟩
  · rw [h1.1 (by decide)]
    decide
  · rw [h2.2.1 (by decide)]
  · rw [h1.2.2 (by decide)]
    decide

/-- C5 (counterexample): a handler that panics with value "boom" only after
the deadline decision has its panic absorbed by the buffered panic channel:
the middleware re-raises nothing, so the claim that every handler panic is
re-raised regardless of the configured timeout duration fails. -/
theorem c5_panic_swallowed_cex :
    (Timeout.run ⟨⟨DefaultResponse⟩, 5⟩ none ⟨[], some "boom"⟩ 0 ⟨[], true⟩ 0
        false Err.deadlineExceeded).panicked = none ∧
    Handler.panics ⟨[], some "boom"⟩ = some "boom" := by
  constructor
  · rfl
  · rfl

/-- C5 (amended): a handler panic is re-raised unchanged on the pass-through
path, and on the racing path whenever the panic signal is observed before the
deadline; in the latter case the engine writes nothing to the real sink, so
the panic is never converted into a timeout response. -/
theorem c5_panic_propagates_amended (t : Timeout) (route : Option Route)
    (h : Handler) (now : Int) (sink0 : RealSink) (k : Nat) (e : Err)
    (p : String) (hp : h.panics = some p)
    (hsh : (execShadow initTimeoutWriter h.ops).2 = none) :
    (t.resolveTimeout route ≤ 0 →
        ∀ fit, (t.run route h now sink0 k fit e).panicked = some p) ∧
    (0 < t.resolveTimeout route →
        (t.run route h now sink0 k true e).panicked = some p ∧
        (t.run route h now sink0 k true e).sink.events =
          (t.setDeadline route now sink0).events) := by
  constructor
  · intro hle fit
    simp only [Timeout.run]
    rw [if_pos hle]
    exact hp
  · intro hpos
    have hnle : ¬ t.resolveTimeout route ≤ 0 := by omega
    rcases hE : execShadow initTimeoutWriter h.ops with ⟨tw1, o⟩
    have ho : o = none := by rw [hE] at hsh; exact hsh
    subst ho
    constructor
    · simp only [Timeout.run]
      rw [if_neg hnle]
      simp [hE, hp]
    · simp only [Timeout.run]
      rw [if_neg hnle]
      simp [hE, hp]

/-- Witness for C5 (amended): the same panicking handler propagated on the
pass-through path and on the racing path before the deadline. -/
theorem c5_panic_propagates_amended_witness :
    (Timeout.run ⟨⟨DefaultResponse⟩, 0⟩ none ⟨[], some "boom"⟩ 0 ⟨[], true⟩ 0
        true Err.canceled).panicked = some "boom" ∧
    (Timeout.run ⟨⟨DefaultResponse⟩, 5⟩ none ⟨[], some "boom"⟩ 0 ⟨[], true⟩ 0
        true Err.canceled).panicked = some "boom" := by
  have h1 := c5_panic_propagates_amended ⟨⟨DefaultResponse⟩, 0⟩ none
    ⟨[], some "boom"⟩ 0 ⟨[], true⟩ 0 Err.canceled "boom" rfl rfl
  have h2 := c5_panic_propagates_amended ⟨⟨DefaultResponse⟩, 5⟩ none
    ⟨[], some "boom"⟩ 0 ⟨[], true⟩ 0 Err.canceled "boom" rfl rfl
  exact ⟨h1.1 (by decide) true, (h2.2 (by decide)).1⟩

/-- C2: when the handler signals completion before the deadline, the engine
commits exactly the buffered output, in the order headers, then status code,
then body bytes, onto the real sink, re-raises nothing, and leaves the
terminal error unset — the client observes none of the fallback response. -/
theorem c2_commit_exact_order (t : Timeout) (route : Option Route)
    (h : Handler) (now : Int) (sink0 : RealSink) (k : Nat) (e : Err)
    (hpos : 0 < t.resolveTimeout route) (hp : h.panics = none)
    (hsh : (execShadow initTimeoutWriter h.ops).2 = none) :
    (t.run route h now sink0 k true e).sink.events =
      (t.setDeadline route now sink0).events ++
        [SinkEvent.copyHeaders ((execShadow initTimeoutWriter h.ops).1).headers,
         SinkEvent.writeHeader ((execShadow initTimeoutWriter h.ops).1).code,
         SinkEvent.write ((execShadow initTimeoutWriter h.ops).1).buf] ∧
    (t.run route h now sink0 k true e).panicked = none ∧
    (t.run route h now sink0 k true e).tw =
      some ((execShadow initTimeoutWriter h.ops).1) ∧
    ((execShadow initTimeoutWriter h.ops).1).err = none := by
  have hnle : ¬ t.resolveTimeout route ≤ 0 := by omega
  rcases hE : execShadow initTimeoutWriter h.ops with ⟨tw1, o⟩
  have ho : o = none := by rw [hE] at hsh; exact hsh
  subst ho
  refine ⟨?_, ?_, ?_, ?_⟩
  · simp only [Timeout.run]
    rw [if_neg hnle]
    simp [hE, hp]
  · simp only [Timeout.run]
    rw [if_neg hnle]
    simp [hE, hp]
  · simp only [Timeout.run]
    rw [if_neg hnle]
    simp [hE, hp]
  · have := execShadow_err h.ops initTimeoutWriter
    rw [hE] at this
    exact this

/-- Witness for C2: a handler writing status 201 and body `[104]` before the
deadline is committed verbatim: headers copy, then status, then body. -/
theorem c2_commit_exact_order_witness :
    (Timeout.run ⟨⟨DefaultResponse⟩, 5⟩ none
        ⟨[HandlerOp.writeHeader 201, HandlerOp.write [104]], none⟩ 0 ⟨[], true⟩
        0 true Err.canceled).sink.events =
      [SinkEvent.copyHeaders [], SinkEvent.writeHeader 201,
       SinkEvent.write [104]] ∧
    (Timeout.run ⟨⟨DefaultResponse⟩, 5⟩ none
        ⟨[HandlerOp.writeHeader 201, HandlerOp.write [104]], none⟩ 0 ⟨[], true⟩
        0 true Err.canceled).panicked = none := by
  have h := c2_commit_exact_order ⟨⟨DefaultResponse⟩, 5⟩ none
    ⟨[HandlerOp.writeHeader 201, HandlerOp.write [104]], none⟩ 0 ⟨[], true⟩ 0
    Err.canceled (by decide) rfl (by decide)
  constructor
  · rw [h.1]
    decide
  · exact h.2.1

/-- C1: when the deadline fires before the handler signals completion, the
real sink receives exactly the fallback response and nothing derived from the
shadow buffer, whatever the handler wrote before the decision and whatever it
keeps writing afterwards: the post-decision shadow still holds only the bytes
buffered before the decision, and any further write is rejected with the
stored terminal error. -/
theorem c1_timeout_discards_buffer (t : Timeout) (route : Option Route)
    (h : Handler) (now : Int) (sink0 : RealSink) (k : Nat) (e : Err)
    (hpos : 0 < t.resolveTimeout route) :
    (t.run route h now sink0 k false e).sink.events =
      (t.setDeadline route now sink0).events ++ t.cfg.resp ∧
    Option.map TimeoutWriter.buf (t.run route h now sink0 k false e).tw =
      some ((execShadow initTimeoutWriter (h.ops.take k)).1).buf ∧
    (∀ p : List Nat,
        Option.map (fun tw => (TimeoutWriter.write tw p).2)
            (t.run route h now sink0 k false e).tw =
          some (Except.error (mapCtxErr e))) := by
  have hnle : ¬ t.resolveTimeout route ≤ 0 := by omega
  have hgate := execShadow_gate (h.ops.drop k)
    (doomShadow (execShadow initTimeoutWriter (h.ops.take k)).1 e)
    (by simp [doomShadow])
  have herr : ((execShadow
      (doomShadow (execShadow initTimeoutWriter (h.ops.take k)).1 e)
      (h.ops.drop k)).1).err = some (mapCtxErr e) := by
    rw [execShadow_err]
    rfl
  refine ⟨?_, ?_, ?_⟩
  · simp only [Timeout.run]
    rw [if_neg hnle, if_neg Bool.false_ne_true]
  · simp only [Timeout.run]
    rw [if_neg hnle, if_neg Bool.false_ne_true]
    simp only [Option.map_some']
    rw [hgate.1]
    rfl
  · intro p
    simp only [Timeout.run]
    rw [if_neg hnle, if_neg Bool.false_ne_true]
    simp only [Option.map_some']
    simp [TimeoutWriter.write, herr]

/-- Witness for C1: a handler that wrote one byte before the deadline and one
after; the client gets exactly the default fallback, the shadow buffer keeps
only the pre-decision byte, and a further write returns the timeout error. -/
theorem c1_timeout_discards_buffer_witness :
    (Timeout.run ⟨⟨DefaultResponse⟩, 5⟩ none
        ⟨[HandlerOp.write [104], HandlerOp.write [105]], none⟩ 0 ⟨[], true⟩ 1
        false Err.deadlineExceeded).sink.events = DefaultResponse ∧
    Option.map TimeoutWriter.buf
        (Timeout.run ⟨⟨DefaultResponse⟩, 5⟩ none
          ⟨[HandlerOp.write [104], HandlerOp.write [105]], none⟩ 0 ⟨[], true⟩ 1
          false Err.deadlineExceeded).tw = some [104] ∧
    Option.map (fun tw => (TimeoutWriter.write tw [9]).2)
        (Timeout.run ⟨⟨DefaultResponse⟩, 5⟩ none
          ⟨[HandlerOp.write [104], HandlerOp.write [105]], none⟩ 0 ⟨[], true⟩ 1
          false Err.deadlineExceeded).tw =
      some (Except.error Err.errHandlerTimeout) := by
  have h := c1_timeout_discards_buffer ⟨⟨DefaultResponse⟩, 5⟩ none
    ⟨[HandlerOp.write [104], HandlerOp.write [105]], none⟩ 0 ⟨[], true⟩ 1
    Err.deadlineExceeded (by decide)
  refine ⟨?_, ?_, ?_⟩
  · rw [h.1]
    decide
  · rw [h.2.1]
    decide
  · exact h.2.2 [9]

/-- C3: when the derived context is done first, the terminal error stored in
the shadow is the handler-timeout sentinel exactly when the context error is
deadline-exceeded and is the context error unchanged otherwise; the configured
fallback responder then runs against the original sink; and the default
responder writes a 503 status with the short text body. -/
theorem c3_timeout_error_mapping (t : Timeout) (route : Option Route)
    (h : Handler) (now : Int) (sink0 : RealSink) (k : Nat) (e : Err)
    (he : e = Err.deadlineExceeded ∨ e = Err.canceled)
    (hpos : 0 < t.resolveTimeout route) :
    Option.map TimeoutWriter.err (t.run route h now sink0 k false e).tw =
      some (some (mapCtxErr e)) ∧
    (mapCtxErr e = Err.errHandlerTimeout ↔ e = Err.deadlineExceeded) ∧
    (e ≠ Err.deadlineExceeded → mapCtxErr e = e) ∧
    (t.run route h now sink0 k false e).sink.events =
      (t.setDeadline route now sink0).events ++ t.cfg.resp ∧
    defaultConfig.resp = DefaultResponse ∧
    SinkEvent.writeHeader 503 ∈ DefaultResponse ∧
    SinkEvent.write (strBytes "Service Unavailable\n") ∈ DefaultResponse := by
  have hnle : ¬ t.resolveTimeout route ≤ 0 := by omega
  have herr : ((execShadow
      (doomShadow (execShadow initTimeoutWriter (h.ops.take k)).1 e)
      (h.ops.drop k)).1).err = some (mapCtxErr e) := by
    rw [execShadow_err]
    rfl
  refine ⟨?_, ?_, ?_, ?_, rfl, ?_, ?_⟩
  · simp only [Timeout.run]
    rw [if_neg hnle, if_neg Bool.false_ne_true]
    simp only [Option.map_some']
    rw [herr]
  · rcases he with he | he <;> subst he <;> simp [mapCtxErr]
  · intro hne
    cases e with
    | deadlineExceeded => exact absurd rfl hne
    | errHandlerTimeout => rfl
    | canceled => rfl
    | errNotSupported => rfl
  · simp only [Timeout.run]
    rw [if_neg hnle, if_neg Bool.false_ne_true]
  · decide
  · decide

/-- Witness for C3: a deadline-exceeded context stores the sentinel; the
default fallback is written to the real sink. -/
theorem c3_timeout_error_mapping_witness :
    Option.map TimeoutWriter.err
        (Timeout.run ⟨⟨DefaultResponse⟩, 5⟩ none ⟨[], none⟩ 0 ⟨[], true⟩ 0
          false Err.deadlineExceeded).tw =
      some (some Err.errHandlerTimeout) ∧
    (Timeout.run ⟨⟨DefaultResponse⟩, 5⟩ none ⟨[], none⟩ 0 ⟨[], true⟩ 0 false
        Err.deadlineExceeded).sink.events = DefaultResponse := by
  have h := c3_timeout_error_mapping ⟨⟨DefaultResponse⟩, 5⟩ none ⟨[], none⟩ 0
    ⟨[], true⟩ 0 Err.deadlineExceeded (Or.inl rfl) (by decide)
  constructor
  · exact h.1
  · rw [h.2.2.2.1]
    decide

/-- C8: an absent route or absent tag yields `(0, false)` and applies no
deadline; present read/write overrides are applied to the connection as
absolute deadlines `now + override` exactly when the connection supports them
(failures are swallowed, never surfaced); and on every path — pass-through or
racing — the deadline application precedes everything else written to the
sink. -/
theorem c8_deadlines_before_handler (t : Timeout) (route : Option Route)
    (r : Route) (k2 : Tag) (h : Handler) (now : Int) (s sink0 : RealSink)
    (kk : Nat) (fit : Bool) (e : Err) :
    unwrapRouteTimeout none k2 = (0, false) ∧
    (Route.ann r k2 = none → unwrapRouteTimeout (some r) k2 = (0, false)) ∧
    (t.setDeadline route now s).events =
      s.events ++
        (if (unwrapRouteTimeout route Tag.rKey).2 && s.supportsDeadline then
          [SinkEvent.setReadDeadline (now + (unwrapRouteTimeout route Tag.rKey).1)]
         else []) ++
        (if (unwrapRouteTimeout route Tag.wKey).2 && s.supportsDeadline then
          [SinkEvent.setWriteDeadline (now + (unwrapRouteTimeout route Tag.wKey).1)]
         else []) ∧
    (∃ tail, (t.run route h now sink0 kk fit e).sink.events =
        (t.setDeadline route now sink0).events ++ tail) := by
  refine ⟨rfl, ?_, ?_, ?_⟩
  · intro ha
    simp only [unwrapRouteTimeout, ha]
  · rcases hr : unwrapRouteTimeout route Tag.rKey with ⟨dr, br⟩
    rcases hw : unwrapRouteTimeout route Tag.wKey with ⟨dw, bw⟩
    unfold Timeout.setDeadline
    rw [hr, hw]
    cases br <;> cases bw <;>
      cases hs : s.supportsDeadline <;>
        simp [RealSink.setReadDeadline, RealSink.setWriteDeadline, hs]
  · by_cases hle : t.resolveTimeout route ≤ 0
    · refine ⟨h.ops.map opEvent, ?_⟩
      simp only [Timeout.run]
      rw [if_pos hle]
      rfl
    · cases fit with
      | false =>
        refine ⟨t.cfg.resp, ?_⟩
        simp only [Timeout.run]
        rw [if_neg hle, if_neg Bool.false_ne_true]
      | true =>
        rcases hE : execShadow initTimeoutWriter h.ops with ⟨tw1, o⟩
        cases o with
        | some q =>
          refine ⟨[], ?_⟩
          simp only [Timeout.run]
          rw [if_neg hle]
          simp [hE]
        | none =>
          cases hp : h.panics with
          | some p =>
            refine ⟨[], ?_⟩
            simp only [Timeout.run]
            rw [if_neg hle]
            simp [hE, hp]
          | none =>
            refine ⟨[SinkEvent.copyHeaders tw1.headers,
              SinkEvent.writeHeader tw1.code, SinkEvent.write tw1.buf], ?_⟩
            simp only [Timeout.run]
            rw [if_neg hle]
            simp [hE, hp]

/-- Witness for C8: a route with only a read-deadline override of 7 at
`now = 100` applies the single absolute read deadline 107 and leaves the
handler-timeout lookup absent. -/
theorem c8_deadlines_before_handler_witness :
    unwrapRouteTimeout (some ⟨[(Tag.rKey, 7)]⟩) Tag.hKey = (0, false) ∧
    (Timeout.setDeadline ⟨⟨DefaultResponse⟩, 5⟩ (some ⟨[(Tag.rKey, 7)]⟩) 100
        ⟨[], true⟩).events = [SinkEvent.setReadDeadline 107] := by
  have h := c8_deadlines_before_handler ⟨⟨DefaultResponse⟩, 5⟩
    (some ⟨[(Tag.rKey, 7)]⟩) ⟨[(Tag.rKey, 7)]⟩ Tag.hKey ⟨[], none⟩ 100
    ⟨[], true⟩ ⟨[], true⟩ 0 true Err.canceled
  constructor
  · exact h.2.1 (by decide)
  · rw [h.2.2.1]
    decide

end FoxTimeout
